import Mathlib

/- Verification development for the mountmonitor repository.

   Shallow embedding of the three source files:
     src/FolderDeletionWatcher.ts  (the DeletionWatcher component)
     src/MountMonitor.ts           (the VolumeReconciler component)
     src/Functions.ts              (shared helpers, in particular isDirectory)

   Conventions used throughout:
   - JavaScript strings are Lean String values; the handful of string
     operations the code uses (toUpperCase, startsWith, split, localeCompare
     on already-uppercased ASCII labels) are given executable models over the
     underlying character lists so that concrete runs evaluate in the kernel.
   - Asynchronous control flow is made explicit: promise resolution,
     then-continuations, timer ticks and filesystem notifications become
     events of small step relations, applied in the order the single-threaded
     runtime would run them.
   - Fallible stat calls are modelled by a StatOutcome argument describing
     what the underlying FS.promises.lstat / stat call did. -/

namespace Mountmonitor

/-! ## Models of the JavaScript string primitives used by the source -/

/-- Model of String.prototype.toUpperCase restricted to the ASCII range:
uppercase every character of the string. -/
def jsToUpper (s : String) : String := String.mk (s.data.map Char.toUpper)

/-- Lexicographic comparison of character lists by code point; used to model
localeCompare on the uppercased keys that sortFilesystems compares. -/
def charListLtb : List Char → List Char → Bool
  | [], [] => false
  | [], _ :: _ => true
  | _ :: _, [] => false
  | a :: as, b :: bs =>
    if a.toNat < b.toNat then true
    else if b.toNat < a.toNat then false
    else charListLtb as bs

/-- Model of the negative outcome of a.localeCompare(b): a sorts strictly
before b. -/
def jsLtb (a b : String) : Bool := charListLtb a.data b.data

/-- Model of String.prototype.startsWith, used for the anchored prefix
regexes of the darwin ignore list. -/
def strStartsWith (s pre : String) : Bool := pre.data.isPrefixOf s.data

/-- Model of String.prototype.split for a single-character separator:
split the character list at every occurrence of sep. -/
def splitOnChar (sep : Char) : List Char → List (List Char)
  | [] => [[]]
  | c :: rest =>
    match splitOnChar sep rest with
    | [] => [[]]
    | w :: ws => if c = sep then [] :: w :: ws else (c :: w) :: ws

/-- Model of s.split(sep).pop() as used to turn a share path into a label
(the final path component). splitOnChar never returns an empty list, so the
default branch of getLastD is unreachable. -/
def lastComponent (sep : Char) (s : String) : String :=
  String.mk ((splitOnChar sep s.data).getLastD [])

/-! ## Outcome of the underlying stat primitive

Both isDirectory helpers call a stat primitive that either yields a Stats
object (of which only isDirectory() is consulted) or rejects with an error
carrying a code string. -/

/-- Result of one call to FS.promises.lstat / Config.FS.promises.stat:
either the Stats object (summarised by its isDirectory() bit) or a rejection
with the given err.code. -/
inductive StatOutcome
  | stats (isDir : Bool)
  | failure (code : String)
deriving DecidableEq

namespace Functions

/-- Embedding of isDirectory from src/Functions.ts: await lstat; return
stats.isDirectory(); on rejection return false when err.code is ENOENT and
rethrow every other error. -/
def isDirectory : StatOutcome → Except String Bool
  | .stats d => .ok d
  | .failure code => if code = "ENOENT" then .ok false else .error code

end Functions

namespace FolderDeletionWatcher

/-- Embedding of the private isDirectory at the bottom of
src/FolderDeletionWatcher.ts: stat(path).then(stats =>
stats.isDirectory()).catch(err => false). The catch handler ignores the
error entirely, so no failure is ever propagated. -/
def isDirectory : StatOutcome → Except String Bool
  | .stats d => .ok d
  | .failure _ => .ok false

end FolderDeletionWatcher

/-! ## FolderDeletionWatcher: the ancestor-watch strategy

A filesystem path is modelled as its list of name components with the
innermost component (the basename) first; the filesystem root is the empty
list. Under this representation Path.dirname is List.tail and Path.basename
is List.head, and the termination test path === Path.dirname(path) of
_startParent holds exactly at the root. -/

/-- A filesystem path: name components, innermost first; root is []. -/
abbrev FsPath := List String

/-- The chain of FS.watch subscriptions built by the recursion of
FolderDeletionWatcher._startParent for a target path: one subscription per
non-root level, watching that level gets its parent directory watched for a
rename of its own name component. The recursion returns immediately when the
level equals its parent, i.e. at the root. -/
def watchChain : FsPath → List (FsPath × String)
  | [] => []
  | name :: parent => (parent, name) :: watchChain parent

/-- Runtime state of one FolderDeletionWatcher using the parent strategy.
watches holds the open FS.watch subscriptions (all registered against the
one shared abort signal); resolved records whether the shared context
promise has been resolved; thenPending records that the promise has resolved
but its then-continuation (stop-then-callback) has not yet run as a
microtask; stopped models the abort controller being undefined; and
callbackCount counts invocations of the user callback. -/
structure WatcherState where
  watches : List (FsPath × String)
  resolved : Bool
  thenPending : Bool
  stopped : Bool
  callbackCount : Nat
deriving DecidableEq

/-- The events the single-threaded runtime can deliver to a watcher:
an FS.watch rename notification for entry name inside directory dir, the
run of the pending then-continuation of the shared promise, and an external
call to stop(). -/
inductive WatcherEvent
  | fsRename (dir : FsPath) (name : String)
  | runThen
  | userStop
deriving DecidableEq

/-- One step of the watcher. A rename notification is delivered only to a
still-open subscription for exactly that (directory, name) pair, and
sharedContext.resolve resolves the promise only if it is not yet resolved
(promise resolution is single-fire); resolution queues the
then-continuation. Running the then-continuation executes this.stop()
(closing every subscription through the shared abort signal) and then the
user callback, unconditionally. stop() aborts only when the abort controller
is still defined; abort fires every cleanup listener, closing all
subscriptions at once. -/
def wstep (s : WatcherState) : WatcherEvent → WatcherState
  | .fsRename dir name =>
    if (dir, name) ∈ s.watches ∧ s.resolved = false then
      { s with resolved := true, thenPending := true }
    else s
  | .runThen =>
    if s.thenPending then
      { s with thenPending := false, stopped := true, watches := [],
               callbackCount := s.callbackCount + 1 }
    else s
  | .userStop =>
    if s.stopped then s else { s with stopped := true, watches := [] }

/-- Run a watcher through a list of events in order. -/
def wrun (s : WatcherState) (evs : List WatcherEvent) : WatcherState :=
  evs.foldl wstep s

/-- State of a watcher on a path that was a directory at watch time, after
an un-raced startup: start() allocated the abort controller, its await
isDirectory probe resolved with no intervening stop() call, and
_startParent built the full subscription chain with every per-level cleanup
registered on the live abort signal; nothing has fired. The startup window
itself is covered by the lifecycle model below. -/
def initWatcher (p : FsPath) : WatcherState :=
  { watches := watchChain p, resolved := false, thenPending := false,
    stopped := false, callbackCount := 0 }

/-! ## FolderDeletionWatcher: the full start and stop lifecycle

The constructor calls the async start(), which allocates the abort
controller synchronously and then suspends at await isDirectory(path), so
stop() can run before start() resumes. Every _startParent level reads
this._abortController?.signal at build time and registers its cleanup
listener only when the controller is still defined at that moment; a chain
built after a stop() call that cleared the controller therefore has no
cleanup listeners, and nothing can ever close it. The post-startup model
above (WatcherState, wstep) describes a watcher whose startup completed
without an intervening stop(); the model below makes the startup window
explicit. -/

/-- State of a watcher across the whole start and stop lifecycle.
controllerDefined models this._abortController not being undefined;
startPending records that start() is suspended at its await
isDirectory(path); closableWatches are the FS.watch subscriptions whose
cleanup listener was registered on the live abort signal when they were
built; orphanWatches were built while the controller was undefined, so no
cleanup listener exists for them and they stay open forever. -/
structure LifecycleState where
  controllerDefined : Bool
  startPending : Bool
  closableWatches : List (FsPath × String)
  orphanWatches : List (FsPath × String)
  resolved : Bool
  thenPending : Bool
  callbackCount : Nat
deriving DecidableEq

/-- Events on the lifecycle timeline: the await isDirectory probe of
start() resolves with the given result, an FS.watch rename notification
arrives on an open subscription, the then-continuation of the shared
promise runs, or the user calls stop(). -/
inductive LifecycleEvent
  | probeResolved (isDir : Bool)
  | fsRename (dir : FsPath) (name : String)
  | runThen
  | userStop
deriving DecidableEq

/-- Effect of one this.stop() call: when the controller is defined, abort
fires exactly the cleanup listeners registered on its signal, which closes
the closable subscriptions, and the controller is set to undefined;
otherwise nothing happens. Orphan subscriptions have no cleanup listener
and remain open either way. -/
def stopEffect (s : LifecycleState) : LifecycleState :=
  if s.controllerDefined then
    { s with controllerDefined := false, closableWatches := [] }
  else s

/-- One step of the lifecycle model of a watcher for target path p. When
the initial probe resolves true, start() resumes and _startParent builds
the whole chain, registering cleanup listeners only if
this._abortController is still defined at that moment; when the probe
resolves false, start() calls this.stop(). Rename delivery resolves the
shared promise at most once and queues its then-continuation; running the
continuation executes this.stop() and then the user callback,
unconditionally. -/
def lcStep (p : FsPath) (s : LifecycleState) : LifecycleEvent → LifecycleState
  | .probeResolved isDir =>
    if s.startPending then
      if isDir then
        if s.controllerDefined then
          { s with startPending := false, closableWatches := watchChain p }
        else
          { s with startPending := false, orphanWatches := watchChain p }
      else stopEffect { s with startPending := false }
    else s
  | .fsRename dir name =>
    if ((dir, name) ∈ s.closableWatches ∨ (dir, name) ∈ s.orphanWatches) ∧
        s.resolved = false then
      { s with resolved := true, thenPending := true }
    else s
  | .runThen =>
    if s.thenPending then
      { stopEffect s with thenPending := false, callbackCount := s.callbackCount + 1 }
    else s
  | .userStop => stopEffect s

/-- Run the lifecycle model through a list of events in order. -/
def lcRun (p : FsPath) (s : LifecycleState) (evs : List LifecycleEvent) : LifecycleState :=
  evs.foldl (lcStep p) s

/-- State right after the constructor returns: start() has allocated the
abort controller and is suspended at its await isDirectory probe; no
subscription exists yet. -/
def startingWatcher : LifecycleState :=
  { controllerDefined := true, startPending := true, closableWatches := [],
    orphanWatches := [], resolved := false, thenPending := false, callbackCount := 0 }

/-! ## FolderDeletionWatcher: the polling strategy -/

/-- State of a watcher using the interval strategy: whether it has been
stopped (interval cleared) and how often the callback ran. -/
structure IntervalWatcherState where
  stopped : Bool
  callbackCount : Nat
deriving DecidableEq

/-- One firing of the setInterval closure of _startInterval, given the result
of the await isDirectory(path) probe. The source reads: if the probe result
is true, call this.stop() and then the callback. After stop() the interval
is cleared, so a stopped watcher receives no further ticks; this is modelled
by making the tick a no-op on a stopped state. -/
def intervalTick (s : IntervalWatcherState) (probeIsDir : Bool) : IntervalWatcherState :=
  if s.stopped then s
  else if probeIsDir then { stopped := true, callbackCount := s.callbackCount + 1 }
  else s

/-! ## MountMonitor: data model -/

/-- One entry of the mountpoints array of a FileSystem record. -/
structure MountPoint where
  path : String
  label : String
deriving DecidableEq

/-- The FileSystem record type exported by src/MountMonitor.ts. -/
structure FileSystem where
  device : String
  label : String
  filesystem : String
  mount : String
  mountpoints : List MountPoint
  protocol : String
  removable : Bool
  serial : String
  size : Nat
  uuid : String
deriving DecidableEq

/-- The path the monitor keys everything by: filesystem.mountpoints[0].path.
Every FileSystem the module constructs carries exactly one mountpoint. -/
def FileSystem.mountPath (fs : FileSystem) : String :=
  match fs.mountpoints with
  | [] => ""
  | mp :: _ => mp.path

/-- The FileSystemEvent union of src/MountMonitor.ts: a mount or unmount
carrying the filesystem, or a rename carrying the new and the old record. -/
inductive FileSystemEvent
  | mount (filesystem : FileSystem)
  | unmount (filesystem : FileSystem)
  | rename (filesystem : FileSystem) (oldFilesystem : FileSystem)
deriving DecidableEq

/-- The event.filesystem field (for a rename, the new record). -/
def FileSystemEvent.filesystem : FileSystemEvent → FileSystem
  | .mount fs => fs
  | .unmount fs => fs
  | .rename fs _ => fs

/-- The event.type string used as the emit channel. -/
def eventChannel : FileSystemEvent → String
  | .mount _ => "mount"
  | .unmount _ => "unmount"
  | .rename _ _ => "rename"

/-- One emit call on the MountMonitor EventEmitter: either a typed event on
a named channel or a bare notification signal. -/
inductive Emitted
  | event (channel : String) (e : FileSystemEvent)
  | signal (channel : String)
deriving DecidableEq

/-- The module-level mutable state of src/MountMonitor.ts: the
filesystemMap object (an insertion-ordered map from mount path to
FileSystem), the keys of the deletionWatchers object, whether the three
start() listeners are currently registered, and whether intervalVar is set. -/
structure MonitorState where
  filesystemMap : List (String × FileSystem)
  deletionWatchers : List String
  listening : Bool
  intervalSet : Bool
deriving DecidableEq

/-- Property lookup on a JavaScript object modelled as an assoc list. -/
def lookupAssoc (m : List (String × FileSystem)) (k : String) : Option FileSystem :=
  match m with
  | [] => none
  | (k0, v0) :: rest => if k0 = k then some v0 else lookupAssoc rest k

/-- Property assignment obj[k] = v: overwrite in place when the key exists
(JavaScript objects keep the original insertion position), append otherwise. -/
def setAssoc (m : List (String × FileSystem)) (k : String) (v : FileSystem) :
    List (String × FileSystem) :=
  match m with
  | [] => [(k, v)]
  | (k0, v0) :: rest => if k0 = k then (k, v) :: rest else (k0, v0) :: setAssoc rest k v

/-- Property deletion delete obj[k]. -/
def removeAssoc (m : List (String × FileSystem)) (k : String) : List (String × FileSystem) :=
  m.filter (fun kv => kv.1 != k)

/-- Assignment into the deletionWatchers object, tracked by key only: a
fresh watcher replaces any watcher already stored under the same path, so
the key set gains the path if absent. -/
def addWatcherKey (l : List String) (p : String) : List String :=
  if l.contains p then l else l ++ [p]

/-- Deletion of deletionWatchers[path]. -/
def removeWatcherKey (l : List String) (p : String) : List String :=
  l.filter (fun k => k != p)

/-- The _onMount handler: insert the filesystem under
event.filesystem.mountpoints[0].path and store a fresh
FolderDeletionWatcher for that path. -/
def onMount (e : FileSystemEvent) (s : MonitorState) : MonitorState :=
  let path := e.filesystem.mountPath
  { s with filesystemMap := setAssoc s.filesystemMap path e.filesystem,
           deletionWatchers := addWatcherKey s.deletionWatchers path }

/-- The _onUnmount handler: delete the map entry, stop the stored watcher
(the watcher object itself is tracked separately by the WatcherState model)
and delete its entry. -/
def onUnmount (e : FileSystemEvent) (s : MonitorState) : MonitorState :=
  let path := e.filesystem.mountPath
  { s with filesystemMap := removeAssoc s.filesystemMap path,
           deletionWatchers := removeWatcherKey s.deletionWatchers path }

/-- Dispatch of one emit(channel, event) call to the state-mutating
listeners. start() registers exactly three listeners: _onMount on channel
"mount", _onMount on channel "onRename" (the source subscribes the mount
handler under the literal name onRename; the _onRename method exists but is
never subscribed, and no code ever emits on an onRename channel, so events
emitted on the "rename" channel reach no listener), and _onUnmount on
channel "unmount". The module-level "all" listener only logs. -/
def emitEvent (s : MonitorState) (channel : String) (e : FileSystemEvent) : MonitorState :=
  if s.listening then
    if channel = "mount" then onMount e s
    else if channel = "onRename" then onMount e s
    else if channel = "unmount" then onUnmount e s
    else s
  else s

/-- MountMonitor.stop(): when intervalVar is set, remove the three
listeners and clear the interval; otherwise do nothing. -/
def monitorStop (s : MonitorState) : MonitorState :=
  if s.intervalSet then { s with listening := false, intervalSet := false } else s

/-- The callback closure that _onMount installs in the FolderDeletionWatcher
for a mount path: read filesystemMap[path]; if an entry is present, emit an
unmount event on the "unmount" and "all" channels and a bare "change"
signal; if absent, do nothing. Returns the state after listener dispatch
together with the list of emit calls performed. -/
def watcherCallback (path : String) (s : MonitorState) : MonitorState × List Emitted :=
  match lookupAssoc s.filesystemMap path with
  | none => (s, [])
  | some fs =>
    let e := FileSystemEvent.unmount fs
    (emitEvent s "unmount" e,
     [Emitted.event "unmount" e, Emitted.event "all" e, Emitted.signal "change"])

/-! ## MountMonitor: the reconciliation pass (intervalFunction) -/

/-- The three platforms distinguished by process.platform switches. -/
inductive Platform
  | darwin
  | linux
  | win32
deriving DecidableEq

/-- Path.sep for the platform. -/
def pathSep : Platform → Char
  | .win32 => '\\'
  | _ => '/'

/-- Test of the IGNORED_MOUNT_POINTS_REGEX list for the platform: on darwin
the anchored regexes match the empty mount, any mount under /private/, the
exact mount /Volumes/Recovery, and any mount under /System/; the linux and
win32 lists are empty. -/
def ignoredMount (plat : Platform) (mount : String) : Bool :=
  match plat with
  | .darwin =>
    mount == "" || strStartsWith mount "/private/" ||
      mount == "/Volumes/Recovery" || strStartsWith mount "/System/"
  | .linux => false
  | .win32 => false

/-- A raw record from SystemInformation.blockDevices, restricted to the
fields intervalFunction reads. -/
structure RawDevice where
  name : String
  label : String
  fsType : String
  mount : String
  protocol : String
  physical : String
  removable : Bool
  serial : String
  size : Nat
  uuid : String
deriving DecidableEq

/-- A raw record from SystemInformation.fsSize, restricted to the fields
intervalFunction reads. -/
structure RawFS where
  fs : String
  mount : String
  size : Nat
deriving DecidableEq

/-- The filteredDevices pipeline: drop devices on an ignored mount, devices
whose stringified size is empty (String of a number is never the empty
string, so this filter keeps everything), network devices, and disk
images. -/
def filteredDevices (plat : Platform) (devices : List RawDevice) : List RawDevice :=
  ((((devices.filter (fun dev => !ignoredMount plat dev.mount)).filter
      (fun dev => toString dev.size != "")).filter
      (fun dev => dev.physical != "Network")).filter
      (fun dev => dev.protocol != "Disk Image"))

/-- The filteredFileSystems pipeline: drop filesystem records on an ignored
mount, records whose stringified size is empty, and records whose mount is
already covered by a surviving device record. -/
def filteredFileSystems (plat : Platform) (fd : List RawDevice) (filesystems : List RawFS) :
    List RawFS :=
  (((filesystems.filter (fun fs => !ignoredMount plat fs.mount)).filter
      (fun fs => toString fs.size != "")).filter
      (fun fs => (fd.filter (fun dev => dev.mount == fs.mount)).length == 0))

/-- Mapping of a surviving device record to a FileSystem value. -/
def deviceToFileSystem (d : RawDevice) : FileSystem :=
  { device := d.name, label := d.label, filesystem := d.fsType, mount := d.mount,
    mountpoints := [{ path := d.mount, label := d.label }], protocol := d.protocol,
    removable := d.removable, serial := d.serial, size := d.size, uuid := d.uuid }

/-- Mapping of a surviving filesystem record to a FileSystem value for a
network share: the label is the last Path.sep component of the share path
and the uuid is synthesised with UUID.v5 over the share path, modelled by
the supplied deterministic hashing function. -/
def fsRecordToFileSystem (plat : Platform) (uuidv5 : String → String) (f : RawFS) : FileSystem :=
  let lbl := lastComponent (pathSep plat) f.fs
  { device := f.fs, label := lbl, filesystem := "SMB", mount := f.mount,
    mountpoints := [{ path := f.mount, label := lbl }], protocol := "SMB",
    removable := true, serial := "", size := f.size, uuid := uuidv5 f.fs }

/-- The sort key compared by sortFilesystems: on darwin the uppercased label
with an empty label replaced by Untitled, otherwise the uppercased
mountpoints[0].path. -/
def sortKey (plat : Platform) (fs : FileSystem) : String :=
  match plat with
  | .darwin => jsToUpper (if fs.label == "" then "Untitled" else fs.label)
  | _ => jsToUpper fs.mountPath

/-- Stable insertion of an element into an already sorted list: the new
element, which occurred later in the original array, goes after every
element whose key does not strictly exceed its own. Array.prototype.sort is
required to be stable, and this insertion sort produces exactly the stable
sorted permutation determined by the comparator. -/
def insertSorted (plat : Platform) (fs : FileSystem) : List FileSystem → List FileSystem
  | [] => [fs]
  | b :: rest =>
    if jsLtb (sortKey plat fs) (sortKey plat b) then fs :: b :: rest
    else b :: insertSorted plat fs rest

/-- Embedding of sortFilesystems: the stable sort of the list under the
platform comparator (SORT is the constant true, so the early return is
dead). -/
def sortFilesystems (plat : Platform) (filesystems : List FileSystem) : List FileSystem :=
  filesystems.foldl (fun acc fs => insertSorted plat fs acc) []

/-- The newState of one pass: filter both raw lists, map them to FileSystem
values (devices first, then the remaining filesystem records) and sort the
concatenation. -/
def computeNewState (plat : Platform) (uuidv5 : String → String)
    (devices : List RawDevice) (filesystems : List RawFS) : List FileSystem :=
  let fd := filteredDevices plat devices
  sortFilesystems plat
    (fd.map deviceToFileSystem ++
      (filteredFileSystems plat fd filesystems).map (fsRecordToFileSystem plat uuidv5))

/-- The uuidFilesystemMap reduce of the pass: later newState entries
overwrite earlier ones under the same uuid, so a lookup finds the last
occurrence. -/
def uuidLookup (newState : List FileSystem) (u : String) : Option FileSystem :=
  newState.reverse.find? (fun fs => fs.uuid == u)

/-- Everything one run of intervalFunction produces besides the state: the
events array in push order, and the list of emit calls it performs at the
end of the pass. -/
structure PassOutput where
  events : List FileSystemEvent
  emitted : List Emitted
deriving DecidableEq

/-- Embedding of one run of intervalFunction.

The raw enumeration results are the devices and filesystems arguments; the
isDirectory probe of src/Functions.ts is summarised by the isDir predicate
(the pass only proceeds on probes that do not throw).

The mount-detection block maps an async closure over newState inside
Promise.all. Each closure synchronously reads filesystemMap[path] (the map
is not mutated before the events.forEach at the end of the pass) and then
awaits the probe; its push into events runs when its probe resolves, so the
relative order of the pushes is the completion order of the probes, not the
array order. That completion order is the order parameter: the list of
newState indices in the order their probes resolved. The probes of a single
pass resolve in some order, so order is a permutation of the indices of
newState; for the in-order schedule it is List.range newState.length.

After Promise.all settles, the unmount and rename detection iterates the
state getter (the sorted values of filesystemMap, read before any mutation
of the pass) against the uuid map of newState. Finally events.forEach emits
every event on its typed channel and on "all", and the pass emits the bare
"changed" and "refresh" signals unconditionally. -/
def intervalFunction (plat : Platform) (uuidv5 : String → String)
    (isDir : String → Bool) (order : List Nat)
    (devices : List RawDevice) (filesystems : List RawFS)
    (s : MonitorState) : MonitorState × PassOutput :=
  let newState := computeNewState plat uuidv5 devices filesystems
  let checks := newState.map (fun fs =>
    if isDir fs.mountPath && (lookupAssoc s.filesystemMap fs.mountPath).isNone
    then some (FileSystemEvent.mount fs) else none)
  let mountEvents := order.filterMap (fun i => checks.getD i none)
  let oldState := sortFilesystems plat (s.filesystemMap.map Prod.snd)
  let diffEvents := oldState.filterMap (fun old =>
    match uuidLookup newState old.uuid with
    | none => some (FileSystemEvent.unmount old)
    | some fs =>
      if fs.label != old.label then some (FileSystemEvent.rename fs old) else none)
  let events := mountEvents ++ diffEvents
  let s1 := events.foldl (fun st e => emitEvent st (eventChannel e) e) s
  let emitted :=
    (events.map (fun e => [Emitted.event (eventChannel e) e, Emitted.event "all" e])).flatten
      ++ [Emitted.signal "changed", Emitted.signal "refresh"]
  (s1, { events := events, emitted := emitted })

/-! ## The pass scheduler of MountMonitor.start()

start() runs intervalFunction once and then installs it with
setInterval(intervalFunction, INTERVAL_LENGTH). The timer callback invokes
the async intervalFunction and discards the returned promise: nothing in the
source checks whether the previous invocation has settled. The scheduler
timeline is therefore modelled by two events: a timer tick, which starts one
more pass, and the completion of the asynchronous work of an earlier pass. -/

/-- Events on the scheduler timeline. -/
inductive SchedulerEvent
  | tick
  | complete
deriving DecidableEq

/-- Effect of one scheduler event on the number of passes in flight: a tick
starts a pass unconditionally, a completion retires one. -/
def schedulerStep (running : Nat) : SchedulerEvent → Nat
  | .tick => running + 1
  | .complete => running - 1

/-- The largest number of passes simultaneously in flight along a
timeline. -/
def maxInFlight (running : Nat) : List SchedulerEvent → Nat
  | [] => running
  | e :: rest => max running (maxInFlight (schedulerStep running e) rest)

/-- The timeline in which every pass completes before the next timer tick:
n ticks, each immediately followed by the completion of the pass it
started. -/
def promptTimeline : Nat → List SchedulerEvent
  | 0 => []
  | n + 1 => SchedulerEvent.tick :: SchedulerEvent.complete :: promptTimeline n

/-! ## Invariants of the watcher step relation -/

/-- State of a watcher after the shared promise has resolved: either the
then-continuation is still pending and the callback has not yet run, or the
continuation has run and the callback ran exactly once. -/
def FiredInv (s : WatcherState) : Prop :=
  s.resolved = true ∧
    ((s.thenPending = true ∧ s.callbackCount = 0) ∨
     (s.thenPending = false ∧ s.callbackCount = 1))

/-- State of a watcher whose single firing is fully over. -/
def DoneInv (s : WatcherState) : Prop :=
  s.resolved = true ∧ s.thenPending = false ∧ s.callbackCount = 1

/-- Lifecycle state in which nothing can ever invoke the callback again:
startup is over, no subscription of either kind is open, and no
continuation is pending. -/
def LcQuietInv (s : LifecycleState) : Prop :=
  s.startPending = false ∧ s.thenPending = false ∧
    s.closableWatches = [] ∧ s.orphanWatches = []

/-! ## Concrete fixtures used by witnesses and counterexamples -/

/-- A raw block device for the /Volumes/Backup example of the spec, as the
enumeration reports it after the user relabels the volume to MyBackup. -/
def backupDevice : RawDevice :=
  { name := "disk2s1", label := "MyBackup", fsType := "apfs", mount := "/Volumes/Backup",
    protocol := "USB", physical := "Flash", removable := true, serial := "SER",
    size := 1000, uuid := "u1" }

/-- The FileSystem value the pass derives from backupDevice. -/
def backupNew : FileSystem := deviceToFileSystem backupDevice

/-- The FileSystem value retained from the previous pass, still carrying the
old label Backup. -/
def backupOld : FileSystem :=
  { backupNew with
    label := "Backup",
    mountpoints := [{ path := "/Volumes/Backup", label := "Backup" }] }

/-- Monitor state holding the pre-rename volume together with its deletion
watcher, with the monitor started. -/
def backupState : MonitorState :=
  { filesystemMap := [("/Volumes/Backup", backupOld)],
    deletionWatchers := ["/Volumes/Backup"], listening := true, intervalSet := true }

/-- A raw device labelled Apple mounted at /Volumes/A. -/
def devA : RawDevice :=
  { name := "diskA", label := "Apple", fsType := "apfs", mount := "/Volumes/A",
    protocol := "USB", physical := "Flash", removable := true, serial := "SA",
    size := 500, uuid := "uA" }

/-- A raw device labelled Banana mounted at /Volumes/B. -/
def devB : RawDevice :=
  { name := "diskB", label := "Banana", fsType := "apfs", mount := "/Volumes/B",
    protocol := "USB", physical := "Flash", removable := true, serial := "SB",
    size := 600, uuid := "uB" }

/-- The started monitor with both maps empty. -/
def emptyMonitor : MonitorState :=
  { filesystemMap := [], deletionWatchers := [], listening := true, intervalSet := true }

/-! ## Helper lemmas about the watcher step relation -/

theorem wrun_cons (s : WatcherState) (e : WatcherEvent) (evs : List WatcherEvent) :
    wrun s (e :: evs) = wrun (wstep s e) evs := rfl

theorem wrun_append (s : WatcherState) (l1 l2 : List WatcherEvent) :
    wrun s (l1 ++ l2) = wrun (wrun s l1) l2 := List.foldl_append wstep s l1 l2

/-- Every non-root ancestor-or-self of the target path has a subscription in
the chain built by _startParent. -/
theorem mem_watchChain (n : String) (t p : FsPath) (h : (n :: t) <:+ p) :
    (t, n) ∈ watchChain p := by
  induction p with
  | nil =>
    rcases h with ⟨r, hr⟩
    exact absurd hr (by simp)
  | cons a q ih =>
    rcases List.suffix_cons_iff.mp h with h1 | h2
    · injection h1 with hn ht
      subst hn; subst ht
      exact List.mem_cons_self _ _
    · exact List.mem_cons_of_mem _ (ih h2)

/-- FiredInv is preserved by every event: once the shared promise has
resolved, nothing resolves it again and the continuation runs at most
once. -/
theorem wstep_firedInv (s : WatcherState) (e : WatcherEvent) (h : FiredInv s) :
    FiredInv (wstep s e) := by
  obtain ⟨hres, hcase⟩ := h
  cases e with
  | fsRename dir name =>
    simp only [wstep]
    rw [if_neg]
    · exact ⟨hres, hcase⟩
    · simp [hres]
  | runThen =>
    simp only [wstep]
    by_cases hp : s.thenPending = true
    · rw [if_pos hp]
      rcases hcase with ⟨_, hc0⟩ | ⟨hpf, _⟩
      · exact ⟨hres, Or.inr ⟨rfl, by simp [hc0]⟩⟩
      · rw [hp] at hpf; cases hpf
    · rw [if_neg hp]
      exact ⟨hres, hcase⟩
  | userStop =>
    simp only [wstep]
    split
    · exact ⟨hres, hcase⟩
    · exact ⟨hres, hcase⟩

theorem wrun_firedInv (s : WatcherState) (evs : List WatcherEvent) (h : FiredInv s) :
    FiredInv (wrun s evs) := by
  induction evs generalizing s with
  | nil => exact h
  | cons e rest ih => exact ih _ (wstep_firedInv s e h)

theorem wstep_doneInv (s : WatcherState) (e : WatcherEvent) (h : DoneInv s) :
    DoneInv (wstep s e) := by
  obtain ⟨hres, hpend, hcnt⟩ := h
  cases e with
  | fsRename dir name =>
    simp only [wstep]
    rw [if_neg]
    · exact ⟨hres, hpend, hcnt⟩
    · simp [hres]
  | runThen =>
    simp only [wstep]
    rw [if_neg]
    · exact ⟨hres, hpend, hcnt⟩
    · simp [hpend]
  | userStop =>
    simp only [wstep]
    split
    · exact ⟨hres, hpend, hcnt⟩
    · exact ⟨hres, hpend, hcnt⟩

theorem wrun_doneInv (s : WatcherState) (evs : List WatcherEvent) (h : DoneInv s) :
    DoneInv (wrun s evs) := by
  induction evs generalizing s with
  | nil => exact h
  | cons e rest ih => exact ih _ (wstep_doneInv s e h)

/-- Running the pending then-continuation from any post-resolution state
leaves the watcher with exactly one callback invocation. -/
theorem runThen_doneInv (s : WatcherState) (h : FiredInv s) :
    DoneInv (wstep s .runThen) := by
  obtain ⟨hres, hcase⟩ := h
  simp only [wstep]
  rcases hcase with ⟨hp, hc0⟩ | ⟨hp, hc1⟩
  · rw [if_pos hp]
    exact ⟨hres, rfl, by simp [hc0]⟩
  · rw [if_neg (by simp [hp])]
    exact ⟨hres, hp, hc1⟩

theorem lcRun_cons (p : FsPath) (s : LifecycleState) (e : LifecycleEvent)
    (evs : List LifecycleEvent) :
    lcRun p s (e :: evs) = lcRun p (lcStep p s e) evs := rfl

/-- Repeating this.stop() has no further effect: the first call clears the
controller, so the second finds it undefined. -/
theorem stopEffect_idem (s : LifecycleState) : stopEffect (stopEffect s) = stopEffect s := by
  cases hC : s.controllerDefined with
  | true => simp [stopEffect, hC]
  | false => simp [stopEffect, hC]

/-- In a quiet lifecycle state no event changes the callback count, and the
state stays quiet. -/
theorem lcStep_quietInv (p : FsPath) (s : LifecycleState) (e : LifecycleEvent)
    (h : LcQuietInv s) :
    LcQuietInv (lcStep p s e) ∧ (lcStep p s e).callbackCount = s.callbackCount := by
  obtain ⟨hs, hp, hc, ho⟩ := h
  cases e with
  | probeResolved isDir =>
    simp only [lcStep]
    rw [if_neg (by simp [hs])]
    exact ⟨⟨hs, hp, hc, ho⟩, rfl⟩
  | fsRename dir name =>
    simp only [lcStep]
    rw [if_neg]
    · exact ⟨⟨hs, hp, hc, ho⟩, rfl⟩
    · simp [hc, ho]
  | runThen =>
    simp only [lcStep]
    rw [if_neg (by simp [hp])]
    exact ⟨⟨hs, hp, hc, ho⟩, rfl⟩
  | userStop =>
    simp only [lcStep, stopEffect]
    split
    · exact ⟨⟨hs, hp, rfl, ho⟩, rfl⟩
    · exact ⟨⟨hs, hp, hc, ho⟩, rfl⟩

theorem lcRun_quietInv (p : FsPath) (s : LifecycleState) (evs : List LifecycleEvent)
    (h : LcQuietInv s) :
    (lcRun p s evs).callbackCount = s.callbackCount := by
  induction evs generalizing s with
  | nil => rfl
  | cons e rest ih =>
    obtain ⟨hq, hcnt⟩ := lcStep_quietInv p s e h
    rw [lcRun_cons, ih _ hq, hcnt]

/-! ## Claim theorems -/

/-- C1: for a watcher created on a directory path with the ancestor-watch
strategy, the rename notification produced by removing the path itself or
any of its non-root ancestor directories fires the user callback exactly
once when the shared single-fire signal delivers its continuation, and the
count stays at one under arbitrary further filesystem churn and watcher
events before and after the firing. -/
theorem fdwAncestorRemovalFiresExactlyOnce (p : FsPath) (n : String) (t : FsPath)
    (mid post : List WatcherEvent) (h : (n :: t) <:+ p) :
    (wrun (initWatcher p)
        ((WatcherEvent.fsRename t n :: mid) ++ WatcherEvent.runThen :: post)).callbackCount
      = 1 := by
  have hmem : (t, n) ∈ watchChain p := mem_watchChain n t p h
  have h1 : wstep (initWatcher p) (WatcherEvent.fsRename t n)
      = { watches := watchChain p, resolved := true, thenPending := true,
          stopped := false, callbackCount := 0 } := by
    simp [wstep, initWatcher, hmem]
  rw [List.cons_append, wrun_cons, h1, wrun_append, wrun_cons]
  have hI : FiredInv (wstep (initWatcher p) (WatcherEvent.fsRename t n)) := by
    rw [h1]
    exact ⟨rfl, Or.inl ⟨rfl, rfl⟩⟩
  rw [← h1]
  have hI2 := wrun_firedInv _ mid hI
  have hD := runThen_doneInv _ hI2
  exact (wrun_doneInv _ post hD).2.2

/-- Witness for C1: watching the path a/b/c (components innermost first),
the removal of the ancestor a/b fires the callback exactly once, with extra
churn both before the continuation runs and afterwards. -/
theorem fdwAncestorRemovalFiresExactlyOnce_witness :
    ((["b", "a"] : FsPath) <:+ ["c", "b", "a"]) ∧
    (wrun (initWatcher ["c", "b", "a"])
        ((WatcherEvent.fsRename ["a"] "b" :: [WatcherEvent.fsRename [] "a"]) ++
          WatcherEvent.runThen ::
            [WatcherEvent.fsRename ["b", "a"] "c", WatcherEvent.userStop])).callbackCount
      = 1 :=
  ⟨by decide,
   fdwAncestorRemovalFiresExactlyOnce ["c", "b", "a"] "b" ["a"]
     [WatcherEvent.fsRename [] "a"]
     [WatcherEvent.fsRename ["b", "a"] "c", WatcherEvent.userStop] (by decide)⟩

/-- C2, counterexample to the claim as stated: stop() called while start()
is still suspended at its await isDirectory probe returns with the watcher
apparently stopped (controller undefined, callback count zero, no deletion
detected); when the probe then resolves true, _startParent builds the whole
chain against the now undefined signal, so no cleanup listener is
registered, nothing can close the subscriptions, and a later removal of the
path resolves the shared promise and fires the callback after stop() has
long returned. -/
theorem fdwStopDuringStartupStillFires :
    (lcRun ["a"] startingWatcher [LifecycleEvent.userStop]).callbackCount = 0 ∧
    (lcRun ["a"] startingWatcher [LifecycleEvent.userStop]).controllerDefined = false ∧
    (lcRun ["a"] startingWatcher
        [LifecycleEvent.userStop, LifecycleEvent.probeResolved true]).orphanWatches
      = watchChain ["a"] ∧
    (lcRun ["a"] startingWatcher
        [LifecycleEvent.userStop, LifecycleEvent.probeResolved true,
          LifecycleEvent.fsRename [] "a", LifecycleEvent.runThen]).callbackCount = 1 := by
  decide

/-- C2 as amended: stop() is idempotent, and when it is called after
startup is over (the initial probe is no longer pending), with no pending
then-continuation, no orphan subscription (the chain, if built, was built
while the abort controller was live, so its cleanup listeners exist) and no
leftover closable subscription on an already cleared controller, the
callback never fires after stop() returns, regardless of subsequent
lifecycle events; the guarantee fails exactly in the startup window covered
by the counterexample. -/
theorem fdwStopAfterStartupIdempotentBlocks (p : FsPath) (s : LifecycleState)
    (hstart : s.startPending = false) (hpend : s.thenPending = false)
    (horph : s.orphanWatches = [])
    (hclos : s.controllerDefined = false → s.closableWatches = []) :
    lcStep p (lcStep p s .userStop) .userStop = lcStep p s .userStop ∧
    ∀ evs : List LifecycleEvent,
      (lcRun p (lcStep p s .userStop) evs).callbackCount = s.callbackCount := by
  constructor
  · exact stopEffect_idem s
  · intro evs
    have hq : LcQuietInv (lcStep p s .userStop) := by
      cases hC : s.controllerDefined with
      | true =>
        simp only [lcStep, stopEffect, if_pos hC]
        exact ⟨hstart, hpend, rfl, horph⟩
      | false =>
        have hstep : lcStep p s .userStop = s := by
          simp [lcStep, stopEffect, hC]
        rw [hstep]
        exact ⟨hstart, hpend, hclos hC, horph⟩
    have hcnt : (lcStep p s .userStop).callbackCount = s.callbackCount := by
      cases hC : s.controllerDefined with
      | true => simp [lcStep, stopEffect, hC]
      | false => simp [lcStep, stopEffect, hC]
    rw [lcRun_quietInv p _ evs hq, hcnt]

/-- Witness for the amended C2: a watcher on b/a whose startup completed
normally is stopped; a subsequent removal notification and continuation
slot leave the callback count unchanged. -/
theorem fdwStopAfterStartupIdempotentBlocks_witness :
    (lcRun ["b", "a"] startingWatcher [LifecycleEvent.probeResolved true]).startPending
      = false ∧
    (lcRun ["b", "a"] startingWatcher [LifecycleEvent.probeResolved true]).thenPending
      = false ∧
    (lcRun ["b", "a"] startingWatcher [LifecycleEvent.probeResolved true]).orphanWatches
      = [] ∧
    (lcRun ["b", "a"]
        (lcStep ["b", "a"]
          (lcRun ["b", "a"] startingWatcher [LifecycleEvent.probeResolved true]) .userStop)
        [LifecycleEvent.fsRename ["a"] "b", LifecycleEvent.runThen]).callbackCount
      = (lcRun ["b", "a"] startingWatcher [LifecycleEvent.probeResolved true]).callbackCount :=
  ⟨rfl, rfl, rfl,
   (fdwStopAfterStartupIdempotentBlocks ["b", "a"]
     (lcRun ["b", "a"] startingWatcher [LifecycleEvent.probeResolved true])
     rfl rfl rfl (by decide)).2
     [LifecycleEvent.fsRename ["a"] "b", LifecycleEvent.runThen]⟩

/-- C3: the polling strategy of _startInterval calls stop-then-callback on
the first probe whose isDirectory result is true, i.e. while the watched
path is still a directory, and never calls the callback when the probe
reports the directory gone. The claim, the surrounding comment and the
purpose of the class all require the opposite test, so this evaluates the
code at the failing input: a probe that still finds the directory. -/
theorem intervalProbeInverted :
    (intervalTick { stopped := false, callbackCount := 0 } true).callbackCount = 1 ∧
    (intervalTick { stopped := false, callbackCount := 0 } true).stopped = true ∧
    (intervalTick { stopped := false, callbackCount := 0 } false).callbackCount = 0 := by
  decide

/-- C4: a pass over a volume whose label changed from Backup to MyBackup,
identity and mount path unchanged, pushes exactly one rename event and no
mount or unmount event, but leaves the retained filesystemMap entry at the
old value: the rename channel has no registered listener (start subscribes
the mount handler under the channel onRename instead of the rename handler
under rename), so the claimed in-place update never happens. -/
theorem renameEmittedButStateStale :
    (intervalFunction .darwin (fun _ => "") (fun _ => true) [0]
        [backupDevice] [] backupState).2.events
      = [FileSystemEvent.rename backupNew backupOld] ∧
    (intervalFunction .darwin (fun _ => "") (fun _ => true) [0]
        [backupDevice] [] backupState).1.filesystemMap
      = [("/Volumes/Backup", backupOld)] ∧
    backupOld.label = "Backup" ∧ backupNew.label = "MyBackup" := by
  decide

/-- C5: running a second pass with enumeration output identical to the
first is not idempotent: because the first passes rename event never
updated the retained state, the second pass pushes the same rename event
again instead of zero events. -/
theorem secondIdenticalPassReemitsRename :
    (intervalFunction .darwin (fun _ => "") (fun _ => true) [0] [backupDevice] []
        (intervalFunction .darwin (fun _ => "") (fun _ => true) [0]
          [backupDevice] [] backupState).1).2.events
      = [FileSystemEvent.rename backupNew backupOld] ∧
    (intervalFunction .darwin (fun _ => "") (fun _ => true) [0] [backupDevice] []
        (intervalFunction .darwin (fun _ => "") (fun _ => true) [0]
          [backupDevice] [] backupState).1).2.events
      ≠ [] := by
  decide

/-! ## Lemmas for the mount-detection phase -/

theorem range_filterMap_getD {β : Type} (l : List (Option β)) :
    (List.range l.length).filterMap (fun i => l.getD i none) = l.filterMap id := by
  induction l with
  | nil => rfl
  | cons a t ih =>
    rw [List.length_cons, List.range_succ_eq_map, List.filterMap_cons]
    have htail : (List.map Nat.succ (List.range t.length)).filterMap
        (fun i => (a :: t).getD i none) = t.filterMap id := by
      rw [List.filterMap_map]
      have hfun : ((fun i => (a :: t).getD i none) ∘ Nat.succ)
          = fun i => t.getD i none := by
        funext i
        simp [List.getD_cons_succ]
      rw [hfun, ih]
    cases a with
    | none => simpa using htail
    | some b => simpa using htail

theorem filterMap_guard_map {α β : Type} (p : α → Bool) (g : α → β) (l : List α) :
    l.filterMap (fun x => if p x then some (g x) else none) = (l.filter p).map g := by
  induction l with
  | nil => rfl
  | cons a t ih =>
    by_cases h : p a
    · simp [List.filterMap_cons, List.filter_cons, h, ih]
    · simp [List.filterMap_cons, List.filter_cons, h, ih]

/-- With an empty prior state a pass produces no unmount or rename events,
and its events array is exactly the mount pushes in probe-completion
order. -/
theorem pass_events_empty_state (plat : Platform) (uuidv5 : String → String)
    (isDir : String → Bool) (order : List Nat)
    (devices : List RawDevice) (filesystems : List RawFS) :
    (intervalFunction plat uuidv5 isDir order devices filesystems emptyMonitor).2.events
      = order.filterMap (fun i =>
          ((computeNewState plat uuidv5 devices filesystems).map (fun fs =>
            if isDir fs.mountPath then some (FileSystemEvent.mount fs) else none)).getD i none) := by
  simp only [intervalFunction, emptyMonitor, lookupAssoc, Option.isNone_none,
    Bool.and_true, sortFilesystems, List.map_nil, List.foldl_nil, List.filterMap_nil,
    List.append_nil]

/-- C6 as amended: with an empty prior state a reconciliation pass produces
exactly one mount event per candidate that survives filtering and whose
mount path the existence probe confirms, but the events array lists them in
the order the probes of the Promise.all block complete; for every
completion order (any permutation of the candidate indices) the events are
a permutation of one mount per confirmed sorted candidate, and exactly when
the probes complete in candidate order the events follow the platform sort
order. -/
theorem mountPassFromEmptyState (plat : Platform) (uuidv5 : String → String)
    (isDir : String → Bool) (order : List Nat)
    (devices : List RawDevice) (filesystems : List RawFS)
    (hperm : order.Perm (List.range (computeNewState plat uuidv5 devices filesystems).length)) :
    (intervalFunction plat uuidv5 isDir order devices filesystems emptyMonitor).2.events.Perm
      (((computeNewState plat uuidv5 devices filesystems).filter
          (fun fs => isDir fs.mountPath)).map FileSystemEvent.mount) ∧
    (intervalFunction plat uuidv5 isDir
        (List.range (computeNewState plat uuidv5 devices filesystems).length)
        devices filesystems emptyMonitor).2.events
      = ((computeNewState plat uuidv5 devices filesystems).filter
          (fun fs => isDir fs.mountPath)).map FileSystemEvent.mount := by
  have hbase :
      (List.range (computeNewState plat uuidv5 devices filesystems).length).filterMap
          (fun i =>
            ((computeNewState plat uuidv5 devices filesystems).map (fun fs =>
              if isDir fs.mountPath then some (FileSystemEvent.mount fs) else none)).getD i none)
        = ((computeNewState plat uuidv5 devices filesystems).filter
            (fun fs => isDir fs.mountPath)).map FileSystemEvent.mount := by
    have hlen : (computeNewState plat uuidv5 devices filesystems).length
        = ((computeNewState plat uuidv5 devices filesystems).map (fun fs =>
            if isDir fs.mountPath then some (FileSystemEvent.mount fs) else none)).length := by
      rw [List.length_map]
    rw [hlen, range_filterMap_getD, List.filterMap_map]
    have hid : (id ∘ fun fs =>
        if isDir fs.mountPath then some (FileSystemEvent.mount fs) else none)
        = fun fs => if isDir fs.mountPath then some (FileSystemEvent.mount fs) else none := rfl
    rw [hid, filterMap_guard_map]
  constructor
  · rw [pass_events_empty_state]
    rw [← hbase]
    exact hperm.filterMap _
  · rw [pass_events_empty_state]
    exact hbase

/-- Witness for the amended C6: two devices whose probes complete in
reverse candidate order still yield one mount event per candidate. -/
theorem mountPassFromEmptyState_witness :
    ([1, 0] : List Nat).Perm
        (List.range (computeNewState .darwin (fun _ => "") [devB, devA] []).length) ∧
    (intervalFunction .darwin (fun _ => "") (fun _ => true) [1, 0]
        [devB, devA] [] emptyMonitor).2.events.Perm
      (((computeNewState .darwin (fun _ => "") [devB, devA] []).filter
          (fun fs => (fun _ => true) fs.mountPath)).map FileSystemEvent.mount) :=
  ⟨by decide,
   (mountPassFromEmptyState .darwin (fun _ => "") (fun _ => true) [1, 0]
     [devB, devA] [] (by decide)).1⟩

/-- C6, counterexample to the claim as stated: the sorted candidate list on
darwin puts the Apple volume before the Banana volume, but when the
existence probe of the Banana volume completes first the events array holds
the mount events in completion order, not in the platform sort order. -/
theorem mountEventsNotInSortOrder :
    computeNewState .darwin (fun _ => "") [devB, devA] []
      = [deviceToFileSystem devA, deviceToFileSystem devB] ∧
    (intervalFunction .darwin (fun _ => "") (fun _ => true) [1, 0]
        [devB, devA] [] emptyMonitor).2.events
      = [FileSystemEvent.mount (deviceToFileSystem devB),
         FileSystemEvent.mount (deviceToFileSystem devA)] ∧
    (intervalFunction .darwin (fun _ => "") (fun _ => true) [1, 0]
        [devB, devA] [] emptyMonitor).2.events
      ≠ (computeNewState .darwin (fun _ => "") [devB, devA] []).map FileSystemEvent.mount := by
  decide

/-- C7 as amended: the changed signal and the refresh signal are both
emitted at the end of every reconciliation pass, unconditionally, whether
or not the pass produced events. -/
theorem changedAndRefreshAlwaysEmitted (plat : Platform) (uuidv5 : String → String)
    (isDir : String → Bool) (order : List Nat) (devices : List RawDevice)
    (filesystems : List RawFS) (s : MonitorState) :
    Emitted.signal "changed"
        ∈ (intervalFunction plat uuidv5 isDir order devices filesystems s).2.emitted ∧
    Emitted.signal "refresh"
        ∈ (intervalFunction plat uuidv5 isDir order devices filesystems s).2.emitted := by
  constructor <;> simp [intervalFunction]

/-- C7, counterexample to the claim as stated: a pass over an empty
enumeration and empty state produces zero events yet still emits the
changed signal, so changed is not emitted if and only if events were
produced. -/
theorem changedEmittedWithoutEvents :
    (intervalFunction .darwin (fun _ => "") (fun _ => true) [] [] [] emptyMonitor).2.events = [] ∧
    Emitted.signal "changed"
        ∈ (intervalFunction .darwin (fun _ => "") (fun _ => true) [] [] [] emptyMonitor).2.emitted := by
  decide

/-- C8 as amended: the setInterval timer starts a pass on every tick with
no in-flight guard, so two passes overlap exactly when a pass outlasts the
interval; along every timeline in which each pass completes before the next
tick, at most one pass is ever in flight. -/
theorem promptTimelineSingleFlight (n : Nat) : maxInFlight 0 (promptTimeline n) ≤ 1 := by
  induction n with
  | zero => simp [promptTimeline, maxInFlight]
  | succ k ih =>
    simp only [promptTimeline, maxInFlight, schedulerStep, Nat.add_sub_cancel]
    omega

/-- C8, counterexample to the claim as stated: when the asynchronous work
of a pass is still outstanding at the next timer tick (two ticks with no
completion between them), two passes are in flight at once. -/
theorem overlappingPassesPossible :
    maxInFlight 0 [SchedulerEvent.tick, SchedulerEvent.tick] = 2 ∧
    1 < maxInFlight 0 [SchedulerEvent.tick, SchedulerEvent.tick] := by
  decide

/-- C9 as amended: the existence probe of Functions.ts returns false for
the not-found case without throwing and rethrows every other stat failure,
while the private probe of FolderDeletionWatcher.ts returns false for every
stat failure and propagates none of them; both report the Stats isDirectory
bit on success. -/
theorem probeErrorPolicy (code : String) (h : code ≠ "ENOENT") :
    Functions.isDirectory (.failure code) = .error code ∧
    Functions.isDirectory (.failure "ENOENT") = .ok false ∧
    FolderDeletionWatcher.isDirectory (.failure code) = .ok false ∧
    ∀ d : Bool, Functions.isDirectory (.stats d) = .ok d ∧
      FolderDeletionWatcher.isDirectory (.stats d) = .ok d := by
  refine ⟨?_, rfl, rfl, fun d => ⟨rfl, rfl⟩⟩
  simp [Functions.isDirectory, h]

/-- Witness for the amended C9: a permission failure is propagated by the
Functions.ts probe. -/
theorem probeErrorPolicy_witness :
    ("EACCES" : String) ≠ "ENOENT" ∧
    Functions.isDirectory (.failure "EACCES") = .error "EACCES" :=
  ⟨by decide, (probeErrorPolicy "EACCES" (by decide)).1⟩

/-- C9, counterexample to the claim as stated: on a permission failure the
probe private to FolderDeletionWatcher.ts returns false instead of
propagating the error, while the Functions.ts probe rethrows it. -/
theorem watcherProbeSwallowsError :
    FolderDeletionWatcher.isDirectory (.failure "EACCES") = .ok false ∧
    Functions.isDirectory (.failure "EACCES") = .error "EACCES" := by
  constructor <;> rfl

/-- C10: after MountMonitor.stop() has removed the listeners, the callback
of a still-live FolderDeletionWatcher whose path is present in the map
still performs its three emit calls (the unmount event on the unmount and
all channels and the bare change signal), while the filesystemMap and the
deletionWatchers map are left completely unchanged, the fired watchers
entries included. -/
theorem watcherCallbackAfterStopLeavesMaps (s : MonitorState) (path : String)
    (fs : FileSystem) (hint : s.intervalSet = true)
    (hlook : lookupAssoc s.filesystemMap path = some fs) :
    watcherCallback path (monitorStop s)
      = (monitorStop s,
         [Emitted.event "unmount" (FileSystemEvent.unmount fs),
          Emitted.event "all" (FileSystemEvent.unmount fs),
          Emitted.signal "change"]) ∧
    (watcherCallback path (monitorStop s)).1.filesystemMap = s.filesystemMap ∧
    (watcherCallback path (monitorStop s)).1.deletionWatchers = s.deletionWatchers := by
  have hstop : monitorStop s = { s with listening := false, intervalSet := false } := by
    simp [monitorStop, hint]
  rw [hstop]
  simp [watcherCallback, hlook, emitEvent]

/-- Witness for C10: the stopped monitor still holding the Backup volume
emits all three calls from the watcher callback and keeps both maps. -/
theorem watcherCallbackAfterStopLeavesMaps_witness :
    backupState.intervalSet = true ∧
    lookupAssoc backupState.filesystemMap "/Volumes/Backup" = some backupOld ∧
    watcherCallback "/Volumes/Backup" (monitorStop backupState)
      = (monitorStop backupState,
         [Emitted.event "unmount" (FileSystemEvent.unmount backupOld),
          Emitted.event "all" (FileSystemEvent.unmount backupOld),
          Emitted.signal "change"]) :=
  ⟨rfl, rfl,
   (watcherCallbackAfterStopLeavesMaps backupState "/Volumes/Backup" backupOld rfl rfl).1⟩

end Mountmonitor
